import Mathlib

/-
Verification development for the doctor-appointment-system front-end data
layer.  The TypeScript source is shallowly embedded: JavaScript primitive
values are modelled by the inductive type `JSVal` (with numbers idealised as
rationals extended by NaN and the two infinities; integral values — the only
ones the claims exercise — behave exactly as IEEE doubles do), pure functions
become Lean functions, and the stateful stores become explicit state-passing
functions driven by lists of operations.
-/

namespace DAS

/-! ## JavaScript value model -/

/-- JavaScript numbers, idealised: rationals plus NaN and the infinities.
On integral values (all that the repository's pagination arithmetic
produces) this model agrees exactly with IEEE-754 doubles; the signed zero
distinction is dropped. -/
inductive JSNum where
  | val (q : ℚ)
  | nan
  | inf
  | ninf
deriving DecidableEq, Repr

/-- JavaScript primitive values: undefined, null, booleans, strings and
numbers. Objects and arrays are represented structurally by the dedicated
record types further below, mirroring the shapes the API payloads take. -/
inductive JSVal where
  | undef
  | null
  | bool (b : Bool)
  | str (s : String)
  | num (n : JSNum)
deriving DecidableEq, Repr

/-- JavaScript truthiness: undefined, null, false, the empty string, 0 and
NaN are falsy, everything else is truthy. -/
def jsTruthy : JSVal → Bool
  | .undef => false
  | .null => false
  | .bool b => b
  | .str s => s ≠ ""
  | .num (.val q) => q ≠ 0
  | .num .nan => false
  | .num .inf => true
  | .num .ninf => true

/-- The JavaScript `a || b` operator: `a` when truthy, otherwise `b`. -/
def jsOr (a b : JSVal) : JSVal := if jsTruthy a then a else b

/-- Decimal digits of a natural number, accumulated most-significant first
(fuel-driven so the recursion is visibly structural). -/
def natDecimalAux : Nat → Nat → String → String
  | 0, _, acc => acc
  | fuel + 1, n, acc =>
    if n = 0 then acc
    else natDecimalAux fuel (n / 10) (String.singleton (Char.ofNat (48 + n % 10)) ++ acc)

/-- Decimal rendering of a natural number. -/
def natDecimal (n : Nat) : String :=
  if n = 0 then "0" else natDecimalAux (n + 1) n ""

/-- Rendering of a model number as a string, as `String(x)` would produce.
Integral values render exactly as in JavaScript; non-integral rationals are
rendered as a fraction (an idealisation of decimal float formatting that no
claim depends on). -/
def numToString : JSNum → String
  | .nan => "NaN"
  | .inf => "Infinity"
  | .ninf => "-Infinity"
  | .val q =>
    (if q.num < 0 then "-" else "") ++ natDecimal q.num.natAbs ++
      (if q.den = 1 then "" else "/" ++ natDecimal q.den)

/-- The JavaScript `String(x)` coercion on primitive values. -/
def jsString : JSVal → String
  | .undef => "undefined"
  | .null => "null"
  | .bool b => if b then "true" else "false"
  | .str s => s
  | .num n => numToString n

/-- Parse a list of decimal digit characters; fails on the empty list or on
any non-digit. -/
def digitsToNat? : List Char → Option Nat
  | [] => none
  | l =>
    if l.all Char.isDigit then
      some (l.foldl (fun acc c => acc * 10 + (c.toNat - 48)) 0)
    else none

/-- The string-to-number part of the JavaScript `Number(x)` coercion,
restricted to the decimal-integer fragment: the empty string converts to 0,
an optionally negated digit string to its value, and everything else to NaN.
(Fractional, whitespace-padded and hexadecimal numeric strings are outside
the model; no claim depends on them.) -/
def strToNum (s : String) : JSNum :=
  if s = "" then .val 0
  else
    match s.data with
    | '-' :: rest =>
      match digitsToNat? rest with
      | some n => .val (-(n : ℚ))
      | none => .nan
    | l =>
      match digitsToNat? l with
      | some n => .val (n : ℚ)
      | none => .nan

/-- The JavaScript `Number(x)` coercion on primitive values. -/
def toNumber : JSVal → JSNum
  | .undef => .nan
  | .null => .val 0
  | .bool b => if b then .val 1 else .val 0
  | .str s => strToNum s
  | .num n => n

/-- JavaScript division on numbers (NaN propagates; division by zero yields
a signed infinity, except 0/0 which is NaN). -/
def numDiv : JSNum → JSNum → JSNum
  | .nan, _ => .nan
  | _, .nan => .nan
  | .val a, .val b =>
    if b = 0 then (if a = 0 then .nan else if 0 < a then .inf else .ninf)
    else .val (a / b)
  | .val _, .inf => .val 0
  | .val _, .ninf => .val 0
  | .inf, .val b => if 0 ≤ b then .inf else .ninf
  | .ninf, .val b => if 0 ≤ b then .ninf else .inf
  | .inf, .inf => .nan
  | .inf, .ninf => .nan
  | .ninf, .inf => .nan
  | .ninf, .ninf => .nan

/-- JavaScript `Math.ceil` on numbers. -/
def numCeil : JSNum → JSNum
  | .val q => .val (⌈q⌉ : ℤ)
  | .nan => .nan
  | .inf => .inf
  | .ninf => .ninf

/-! ## Canonical entity shapes (src/types) -/

/-- The two user roles of the system. -/
inductive Role where
  | DOCTOR
  | PATIENT
deriving DecidableEq, Repr

/-- Appointment status, a closed three-state enum. -/
inductive ApptStatus where
  | PENDING
  | COMPLETED
  | CANCELLED
deriving DecidableEq, Repr

/-- Canonical `User` shape produced by the normalizer. -/
structure User where
  id : String
  name : String
  email : String
  role : Role
  photo_url : Option String
deriving DecidableEq, Repr

/-- Canonical `Doctor` shape: a user plus a specialization, role pinned to
DOCTOR by the transformer. -/
structure Doctor where
  id : String
  name : String
  email : String
  role : Role
  photo_url : Option String
  specialization : String
deriving DecidableEq, Repr

/-- Canonical `Appointment` shape produced by the normalizer. -/
structure Appointment where
  id : String
  doctorId : String
  patientId : String
  date : String
  status : ApptStatus
  doctor : Option Doctor
  patient : Option User
  createdAt : String
  updatedAt : String
deriving DecidableEq, Repr

/-- Canonical pagination metadata after numeric coercion. -/
structure Pagination where
  page : JSNum
  limit : JSNum
  total : JSNum
  totalPages : JSNum
deriving DecidableEq, Repr

/-- Canonical paginated collection shape. -/
structure PaginatedResponse (α : Type) where
  data : List α
  pagination : Pagination
deriving DecidableEq, Repr

/-! ## Raw payload shapes fed to the transformers -/

/-- A raw user-like payload: each field is an arbitrary primitive value.
The `specialization` field is carried so that the same raw shape serves
`transformUser`, `transformDoctor` and `transformPatient`. -/
structure RawEntity where
  id : JSVal
  name : JSVal
  email : JSVal
  role : JSVal
  photo_url : JSVal
  specialization : JSVal
deriving DecidableEq, Repr

/-- A raw appointment payload with both casing variants of each reference
field; `doctor`/`patient` are `none` when the field is absent or falsy. -/
structure RawAppointment where
  id : JSVal
  doctorId : JSVal
  doctor_id : JSVal
  patientId : JSVal
  patient_id : JSVal
  date : JSVal
  status : JSVal
  doctor : Option RawEntity
  patient : Option RawEntity
  createdAt : JSVal
  created_at : JSVal
  updatedAt : JSVal
  updated_at : JSVal
deriving DecidableEq, Repr

/-- Raw pagination metadata: arbitrary primitive values per field. -/
structure RawPagination where
  page : JSVal
  limit : JSVal
  total : JSVal
  totalPages : JSVal
deriving DecidableEq, Repr

/-- A raw paginated payload. `data = none` models any non-array value of
the `data` field; `pagination = none` models an absent or falsy
`pagination` field. -/
structure RawPaginated (α : Type) where
  data : Option (List α)
  pagination : Option RawPagination
deriving DecidableEq, Repr

/-! ## Response transformers (src/lib/response-transformers.ts) -/

/-- `responseTransformers.transformUser`. -/
def transformUser (user : RawEntity) : User :=
  { id := jsString user.id
    name := jsString (jsOr user.name (.str ""))
    email := jsString (jsOr user.email (.str ""))
    role := if user.role = .str "DOCTOR" then .DOCTOR else .PATIENT
    photo_url := if jsTruthy user.photo_url then some (jsString user.photo_url) else none }

/-- `responseTransformers.transformDoctor`: the transformed base user with
role pinned to DOCTOR and a coerced specialization. -/
def transformDoctor (doctor : RawEntity) : Doctor :=
  let baseUser := transformUser doctor
  { id := baseUser.id
    name := baseUser.name
    email := baseUser.email
    role := .DOCTOR
    photo_url := baseUser.photo_url
    specialization := jsString (jsOr doctor.specialization (.str "")) }

/-- `responseTransformers.transformPatient`: the transformed base user with
role pinned to PATIENT. -/
def transformPatient (patient : RawEntity) : User :=
  { transformUser patient with role := .PATIENT }

/-- `responseTransformers.transformAppointment`. The `now` argument models
the `new Date().toISOString()` fallback for the timestamp fields. -/
def transformAppointment (now : String) (a : RawAppointment) : Appointment :=
  { id := jsString a.id
    doctorId := jsString (jsOr a.doctorId a.doctor_id)
    patientId := jsString (jsOr a.patientId a.patient_id)
    date := jsString a.date
    status :=
      if a.status = .str "COMPLETED" then .COMPLETED
      else if a.status = .str "CANCELLED" then .CANCELLED
      else .PENDING
    doctor := a.doctor.map transformDoctor
    patient := a.patient.map transformPatient
    createdAt := jsString (jsOr a.createdAt (jsOr a.created_at (.str now)))
    updatedAt := jsString (jsOr a.updatedAt (jsOr a.updated_at (.str now))) }

/-- The empty object used for `response.pagination || {}`: every property
access yields undefined. -/
def emptyRawPagination : RawPagination :=
  { page := .undef, limit := .undef, total := .undef, totalPages := .undef }

/-- `responseTransformers.transformPaginatedResponse`. -/
def transformPaginatedResponse (response : RawPaginated α) (itemTransformer : α → β) :
    PaginatedResponse β :=
  let data := response.data.getD []
  let pagination := response.pagination.getD emptyRawPagination
  { data := data.map itemTransformer
    pagination :=
      { page := toNumber (jsOr pagination.page (.num (.val 1)))
        limit := toNumber (jsOr pagination.limit (.num (.val 10)))
        total := toNumber (jsOr pagination.total (.num (.val 0)))
        totalPages := toNumber (jsOr pagination.totalPages (.num (numCeil (numDiv
          (toNumber (jsOr pagination.total (.num (.val 0))))
          (toNumber (jsOr pagination.limit (.num (.val 10)))))))) } }

/-! ## Re-embedding of normalized entities as raw payloads

Feeding a transformer its own output means viewing the canonical object as
a raw payload again; these injections spell out that view (absent optional
fields become undefined, enums become their string literals). -/

/-- String literal of a role value. -/
def Role.toStr : Role → String
  | .DOCTOR => "DOCTOR"
  | .PATIENT => "PATIENT"

/-- String literal of an appointment status. -/
def ApptStatus.toStr : ApptStatus → String
  | .PENDING => "PENDING"
  | .COMPLETED => "COMPLETED"
  | .CANCELLED => "CANCELLED"

/-- A normalized user viewed as a raw payload. -/
def User.toRaw (u : User) : RawEntity :=
  { id := .str u.id
    name := .str u.name
    email := .str u.email
    role := .str u.role.toStr
    photo_url := match u.photo_url with | some s => .str s | none => .undef
    specialization := .undef }

/-- A normalized doctor viewed as a raw payload. -/
def Doctor.toRaw (d : Doctor) : RawEntity :=
  { id := .str d.id
    name := .str d.name
    email := .str d.email
    role := .str d.role.toStr
    photo_url := match d.photo_url with | some s => .str s | none => .undef
    specialization := .str d.specialization }

/-- A normalized appointment viewed as a raw payload (the snake_case
variants are absent on the normalized object). -/
def Appointment.toRaw (a : Appointment) : RawAppointment :=
  { id := .str a.id
    doctorId := .str a.doctorId
    doctor_id := .undef
    patientId := .str a.patientId
    patient_id := .undef
    date := .str a.date
    status := .str a.status.toStr
    doctor := a.doctor.map Doctor.toRaw
    patient := a.patient.map User.toRaw
    createdAt := .str a.createdAt
    created_at := .undef
    updatedAt := .str a.updatedAt
    updated_at := .undef }

/-- A normalized paginated response viewed as a raw payload. -/
def PaginatedResponse.toRaw (p : PaginatedResponse α) : RawPaginated α :=
  { data := some p.data
    pagination := some
      { page := .num p.pagination.page
        limit := .num p.pagination.limit
        total := .num p.pagination.total
        totalPages := .num p.pagination.totalPages } }

/-! ## Session store (src/store/auth-store.ts) and auth utility
(src/services/auth.ts) -/

/-- In-memory state of the zustand auth store (data fields only). -/
structure AuthStoreState where
  user : Option User
  token : Option String
  isAuthenticated : Bool
  isLoading : Bool
  error : Option String
deriving DecidableEq, Repr

/-- The two localStorage keys managed by `authService` (`auth_token` and
`user_data`); `user_data` is kept in parsed form, the JSON round trip being
exact. -/
structure LocalStorageAuth where
  auth_token : Option String
  user_data : Option User
deriving DecidableEq, Repr

/-- The store's initial state. -/
def initialAuthState : AuthStoreState :=
  { user := none, token := none, isAuthenticated := false, isLoading := false, error := none }

/-- The fully cleared state every failure and logout path writes. -/
def clearedAuthState (err : Option String) : AuthStoreState :=
  { user := none, token := none, isAuthenticated := false, isLoading := false, error := err }

/-- `initialize`: rehydrate from localStorage. Mirrors
`if (token && user)` — note the JavaScript truthiness test, under which an
empty-string token counts as absent. -/
def initializeState (σ : LocalStorageAuth) : AuthStoreState :=
  match σ.auth_token, σ.user_data with
  | some t, some u =>
    if t ≠ "" then
      { user := some u, token := some t, isAuthenticated := true, isLoading := false,
        error := none }
    else clearedAuthState none
  | _, _ => clearedAuthState none

/-- One observable store transition. The async `login`/`registerPatient`/
`registerDoctor` actions are split into their synchronous `set` calls: the
leading loading write, then either the success write or the failure write
(the registration actions perform the identical writes, so one trio models
all three). -/
inductive AuthOp where
  | loginStart
  | loginOk (u : User) (t : String)
  | loginErr (msg : String)
  | logout
  | setUser (u : User)
  | setToken (t : String)
  | clearError
  | rehydrate
deriving Repr

/-- Apply one transition to the (store state, localStorage) pair, exactly
as the corresponding source action writes them. -/
def applyAuthOp : AuthStoreState × LocalStorageAuth → AuthOp → AuthStoreState × LocalStorageAuth
  | (s, σ), .loginStart => ({ s with isLoading := true, error := none }, σ)
  | (_, _), .loginOk u t =>
    ({ user := some u, token := some t, isAuthenticated := true, isLoading := false,
       error := none },
     { auth_token := some t, user_data := some u })
  | (_, σ), .loginErr msg => (clearedAuthState (some msg), σ)
  | (_, _), .logout => (clearedAuthState none, { auth_token := none, user_data := none })
  | (s, σ), .setUser u => ({ s with user := some u }, { σ with user_data := some u })
  | (s, σ), .setToken t =>
    ({ s with token := some t, isAuthenticated := true }, { σ with auth_token := some t })
  | (s, σ), .clearError => ({ s with error := none }, σ)
  | (_, σ), .rehydrate => (initializeState σ, σ)

/-- Run a sequence of transitions from the initial store state over a given
persisted localStorage content. -/
def runAuth (ops : List AuthOp) (σ₀ : LocalStorageAuth) : AuthStoreState × LocalStorageAuth :=
  ops.foldl applyAuthOp (initialAuthState, σ₀)

/-! ## UI-state store notifications (src/store/ui-store.ts) -/

/-- A stored notification (the `type`/`title` presentation fields are
irrelevant to the claims and folded into `message`). -/
structure Notif where
  id : String
  message : String
  duration : Nat
deriving DecidableEq, Repr

/-- UI store state together with the simulated clock: `now` is the current
time and `timers` the pending `setTimeout` auto-removals (fire time,
notification id). -/
structure UIStoreState where
  now : Nat
  notifications : List Notif
  timers : List (Nat × String)
deriving DecidableEq, Repr

/-- The input of `addNotification`: a notification without its id, the
duration possibly unspecified. -/
structure NotifInput where
  message : String
  duration : Option Nat
deriving DecidableEq, Repr

/-- `addNotification`: assign the generated id, default the duration to
5000 ms when unspecified, append the notification, and schedule an
auto-removal timer only when the duration is positive. The generated id is
passed explicitly (`generateId` draws on the clock and `Math.random`). -/
def addNotification (s : UIStoreState) (input : NotifInput) (newId : String) : UIStoreState :=
  let d := input.duration.getD 5000
  { s with
    notifications := s.notifications ++ [{ id := newId, message := input.message, duration := d }]
    timers := if 0 < d then s.timers ++ [(s.now + d, newId)] else s.timers }

/-- `removeNotification`: drop every notification with the given id
(pending timers are left alone, as in the source, where a timer firing for
an already-removed id is a harmless no-op). -/
def removeNotification (s : UIStoreState) (id : String) : UIStoreState :=
  { s with notifications := s.notifications.filter (fun n => n.id ≠ id) }

/-- Advance the simulated clock by `t`: every timer due in the window fires
in order, each performing its `removeNotification`. -/
def elapse (s : UIStoreState) (t : Nat) : UIStoreState :=
  let due := s.timers.filter (fun p => p.1 ≤ s.now + t)
  { now := s.now + t
    notifications := due.foldl
      (fun ns p => ns.filter (fun n => n.id ≠ p.2)) s.notifications
    timers := s.timers.filter (fun p => ¬ p.1 ≤ s.now + t) }

/-- Whether a notification with the given id is currently displayed. -/
def hasNotification (s : UIStoreState) (id : String) : Bool :=
  s.notifications.any (fun n => decide (n.id = id))

/-! ## Retry policies (src/lib/react-query.ts and
src/lib/error-handling.ts) -/

/-- The error value a failing fetcher rejects with, as the retry policies
inspect it: its own `status` property (present on every error the transport
layer emits) and the `status` of an attached axios-style `response` object
(absent from every error the transport layer emits). -/
structure QueryError where
  status : Option Nat
  responseStatus : Option Nat
deriving DecidableEq, Repr

/-- `queryConfig.queries.retry`: refuse to retry only when
`error.response?.status` is a truthy number in [400, 500); otherwise allow
up to 3 retries. -/
def queriesRetry (failureCount : Nat) (e : QueryError) : Bool :=
  match e.responseStatus with
  | some s => if s ≠ 0 ∧ 400 ≤ s ∧ s < 500 then false else decide (failureCount < 3)
  | none => decide (failureCount < 3)

/-- The TanStack Query retry loop, fuel-bounded: one attempt, then while
the policy grants a retry (consulted with the number of failures so far
minus one, matching the library's numeric-retry equivalence `retry: n` ⟺
`failureCount < n`), another attempt. Counts total invocations of an
always-failing fetcher. -/
def attemptCount (shouldRetry : Nat → Bool) (fc : Nat) : Nat → Nat
  | 0 => 1
  | fuel + 1 => if shouldRetry fc then 1 + attemptCount shouldRetry (fc + 1) fuel else 1

/-- Total invocations of an always-failing fetcher under the query retry
policy. -/
def queryAttempts (e : QueryError) : Nat :=
  attemptCount (fun fc => queriesRetry fc e) 0 8

/-- Total invocations of an always-failing mutation under the mutation
retry policy `retry: 1` (numeric, unconditional). -/
def mutationAttempts (_e : QueryError) : Nat :=
  attemptCount (fun fc => decide (fc < 1)) 0 8

/-- `errorUtils.isAuthError` on a plain error object: status 401 (the class
`instanceof` branch is subsumed, `AuthenticationError` instances carrying
status 401). -/
def isAuthError (e : QueryError) : Bool := e.status = some 401

/-- `errorUtils.isAuthorizationError` on a plain error object: status 403. -/
def isAuthorizationError (e : QueryError) : Bool := e.status = some 403

/-- `errorUtils.isValidationError` on a plain error object: status 400. -/
def isValidationError (e : QueryError) : Bool := e.status = some 400

/-- `errorUtils.retry` with an always-failing operation: one call, then —
unless the error is an authentication, authorization or validation error,
or the attempt budget is exhausted — a backoff and another call. Counts
total invocations for a budget of `maxRetries` retries. -/
def errorRetryAttempts (e : QueryError) : Nat → Nat
  | 0 => 1
  | r + 1 =>
    if isAuthError e || isAuthorizationError e || isValidationError e then 1
    else 1 + errorRetryAttempts e r

/-! ## Query cache and the appointment status mutation
(src/hooks/queries/appointments.ts) -/

/-- Cache keys touched by the status-update mutation, one constructor per
key family of `queryKeys`: `['appointments','patient',filters]`,
`['appointments','doctor',filters]` and `['appointments','detail',id]`.
The canonicalized filter component is abstracted as an opaque string. -/
inductive QKey where
  | patientList (filters : String)
  | doctorList (filters : String)
  | detail (id : String)
deriving DecidableEq, Repr

/-- Does a key match the `['appointments','patient']` key? -/
def isPatientKey : QKey → Bool
  | .patientList _ => true
  | _ => false

/-- Does a key match the `['appointments','doctor']` key? -/
def isDoctorKey : QKey → Bool
  | .doctorList _ => true
  | _ => false

/-- Data held under a cache key: a paginated appointment list or a single
appointment detail. -/
inductive CacheData where
  | pag (p : PaginatedResponse Appointment)
  | appt (a : Appointment)
deriving DecidableEq, Repr

/-- The query cache: the set of known queries and the data each holds
(`none` = query present with no data yet). -/
structure Cache where
  keys : List QKey
  store : QKey → Option CacheData

/-- `queryClient.setQueryData(key, value)` with a defined value. -/
def setQueryData (c : Cache) (k : QKey) (v : CacheData) : Cache :=
  { keys := if k ∈ c.keys then c.keys else c.keys ++ [k]
    store := fun k' => if k' = k then some v else c.store k' }

/-- `queryClient.setQueryData(key, value)` where the value may be
undefined: setting undefined is a no-op. -/
def setQueryDataOpt (c : Cache) (k : QKey) : Option CacheData → Cache
  | some v => setQueryData c k v
  | none => c

/-- `queryClient.getQueriesData({queryKey})`: the (key, data) pairs of
every known query matching the key filter. -/
def getQueriesData (c : Cache) (keyFilter : QKey → Bool) : List (QKey × Option CacheData) :=
  (c.keys.filter keyFilter).map (fun k => (k, c.store k))

/-- The `status` argument of the mutation: 'COMPLETE' or 'CANCELLED'. -/
inductive StatusArg where
  | COMPLETE
  | CANCELLED
deriving DecidableEq, Repr

/-- The per-appointment optimistic updater closed over `statusData`: on an
id match, rewrite the status and stamp `updatedAt` with the current time. -/
def optimApp (aid : String) (st : StatusArg) (now : String) (a : Appointment) : Appointment :=
  if a.id = aid then
    { a with
      status := if st = .COMPLETE then .COMPLETED else .CANCELLED
      updatedAt := now }
  else a

/-- The optimistic updater applied to whatever the detail entry holds. A
paginated value has no `id` property, so the source's `appointment.id ===
appointment_id` comparison fails and the value is written back unchanged. -/
def applyStatusToCacheData (aid : String) (st : StatusArg) (now : String) :
    CacheData → CacheData
  | .appt a => .appt (optimApp aid st now a)
  | .pag p => .pag p

/-- One step of the optimistic list pass: the source guards with
`data && typeof data === 'object' && 'data' in data`, so only paginated
snapshot values are rewritten. -/
def optimStep (aid : String) (st : StatusArg) (now : String)
    (acc : Cache) (pair : QKey × Option CacheData) : Cache :=
  match pair.2 with
  | some (.pag p) =>
    setQueryData acc pair.1 (.pag { p with data := p.data.map (optimApp aid st now) })
  | _ => acc

/-- The rollback context `onMutate` returns. -/
structure MutCtx where
  previousPatientAppointments : List (QKey × Option CacheData)
  previousDoctorAppointments : List (QKey × Option CacheData)
  previousAppointment : Option CacheData

/-- The optimistic rewrite pass over one snapshot (the source's `forEach`
over `getQueriesData` results). -/
def optimPass (aid : String) (st : StatusArg) (now : String)
    (snap : List (QKey × Option CacheData)) (c : Cache) : Cache :=
  snap.foldl (optimStep aid st now) c

/-- The rollback pass over one snapshot: write every snapshotted value back
(undefined values are skipped, as `setQueryData` ignores undefined). -/
def restorePass (snap : List (QKey × Option CacheData)) (c : Cache) : Cache :=
  snap.foldl (fun acc pair => setQueryDataOpt acc pair.1 pair.2) c

/-- `useUpdateAppointmentStatus.onMutate`: snapshot the patient and doctor
appointment queries, optimistically rewrite each paginated snapshot entry
and, if present, the detail entry, and return the snapshots as the rollback
context. (`cancelQueries` only stops in-flight refetches and does not touch
stored data.) -/
def onMutateUpd (c : Cache) (aid : String) (st : StatusArg) (now : String) : Cache × MutCtx :=
  let previousPatientAppointments := getQueriesData c isPatientKey
  let previousDoctorAppointments := getQueriesData c isDoctorKey
  let c₁ := optimPass aid st now previousPatientAppointments c
  let c₂ := optimPass aid st now previousDoctorAppointments c₁
  let existingAppointment := c₂.store (.detail aid)
  let c₃ :=
    match existingAppointment with
    | some d => setQueryData c₂ (.detail aid) (applyStatusToCacheData aid st now d)
    | none => c₂
  (c₃, ⟨previousPatientAppointments, previousDoctorAppointments, existingAppointment⟩)

/-- `useUpdateAppointmentStatus.onError`: write every snapshotted entry
back (undefined snapshot values are skipped by `setQueryData` semantics),
then restore the detail entry when one was captured. -/
def onErrorRollback (c : Cache) (aid : String) (ctx : MutCtx) : Cache :=
  let c₁ := restorePass ctx.previousPatientAppointments c
  let c₂ := restorePass ctx.previousDoctorAppointments c₁
  match ctx.previousAppointment with
  | some d => setQueryData c₂ (.detail aid) d
  | none => c₂

/-! ## Theorems -/

/-- Claim C10: `transformUser` pins every role value other than the exact
string "DOCTOR" — missing, null or unrecognized alike — to PATIENT, so
every normalized user carries one of the two roles. -/
theorem transformUser_role_defaults_to_patient (u : RawEntity) :
    ((transformUser u).role = Role.DOCTOR ∨ (transformUser u).role = Role.PATIENT) ∧
    (u.role ≠ JSVal.str "DOCTOR" → (transformUser u).role = Role.PATIENT) := by
  by_cases h : u.role = JSVal.str "DOCTOR" <;>
    simp [transformUser, h]

/-- Witness for C10 at a concrete unrecognized role value. -/
theorem transformUser_role_defaults_to_patient_witness :
    (transformUser ⟨.str "1", .str "n", .str "e", .str "ADMIN", .undef, .undef⟩).role =
      Role.PATIENT :=
  (transformUser_role_defaults_to_patient
    ⟨.str "1", .str "n", .str "e", .str "ADMIN", .undef, .undef⟩).2 (by decide)

/-- Claim C9: a non-array `data` field normalizes to the empty list, and a
missing `pagination` object normalizes to the defaults page 1, limit 10,
total 0, with totalPages computed from those defaults (ceil(0/10) = 0). -/
theorem transformPaginatedResponse_defaults :
    (∀ (α β : Type) (resp : RawPaginated α) (f : α → β), resp.data = none →
      (transformPaginatedResponse resp f).data = []) ∧
    (∀ (α β : Type) (resp : RawPaginated α) (f : α → β), resp.pagination = none →
      (transformPaginatedResponse resp f).pagination =
        ⟨.val 1, .val 10, .val 0, .val 0⟩) := by
  constructor
  · intro α β resp f h
    simp [transformPaginatedResponse, h]
  · intro α β resp f h
    simp [transformPaginatedResponse, h, emptyRawPagination, jsOr, jsTruthy, toNumber,
      numDiv, numCeil]

/-- Witness for C9 at a concrete degenerate payload. -/
theorem transformPaginatedResponse_defaults_witness :
    (transformPaginatedResponse (RawPaginated.mk (α := Nat) none none) (fun n => n)).data
      = [] ∧
    (transformPaginatedResponse (RawPaginated.mk (α := Nat) none none) (fun n => n)).pagination
      = ⟨.val 1, .val 10, .val 0, .val 0⟩ :=
  ⟨transformPaginatedResponse_defaults.1 Nat Nat ⟨none, none⟩ (fun n => n) rfl,
   transformPaginatedResponse_defaults.2 Nat Nat ⟨none, none⟩ (fun n => n) rfl⟩

/-- Claim C7: when the raw payload carries no `totalPages`, the normalizer
computes it as the ceiling of the coerced total divided by the coerced
limit (JavaScript division semantics: both operands numerically coerced). -/
theorem transformPaginatedResponse_totalPages_fallback
    (α β : Type) (resp : RawPaginated α) (f : α → β)
    (h : (resp.pagination.getD emptyRawPagination).totalPages = JSVal.undef) :
    (transformPaginatedResponse resp f).pagination.totalPages =
      numCeil (numDiv (transformPaginatedResponse resp f).pagination.total
        (transformPaginatedResponse resp f).pagination.limit) := by
  simp [transformPaginatedResponse, h, jsOr, jsTruthy, toNumber]

/-- Witness for C7: total 25 and limit 10 with totalPages absent yield
ceil(25/10). -/
theorem transformPaginatedResponse_totalPages_fallback_witness :
    (transformPaginatedResponse
      (RawPaginated.mk (α := Nat)
        (some []) (some ⟨.num (.val 2), .num (.val 10), .num (.val 25), .undef⟩))
      (fun n => n)).pagination.totalPages =
      numCeil (numDiv
        (transformPaginatedResponse
          (RawPaginated.mk (α := Nat)
            (some []) (some ⟨.num (.val 2), .num (.val 10), .num (.val 25), .undef⟩))
          (fun n => n)).pagination.total
        (transformPaginatedResponse
          (RawPaginated.mk (α := Nat)
            (some []) (some ⟨.num (.val 2), .num (.val 10), .num (.val 25), .undef⟩))
          (fun n => n)).pagination.limit) :=
  transformPaginatedResponse_totalPages_fallback Nat Nat
    ⟨some [], some ⟨.num (.val 2), .num (.val 10), .num (.val 25), .undef⟩⟩
    (fun n => n) rfl

/-- Claim C2 (evaluation at the failing input): a fetcher that always
rejects with the transport layer's own error shape `{status: 404}` (no
`response` property) is invoked 4 times under the query retry policy — the
4xx guard reads `error.response?.status` and never fires — and likewise
under `errorUtils.retry`, which exempts only statuses 400, 401 and 403; a
status-500 failure is also invoked 4 times; only an axios-shaped error with
`response.status = 404` is invoked exactly once. -/
theorem retry_404_plain_status_is_retried :
    queryAttempts ⟨some 404, none⟩ = 4 ∧
    queryAttempts ⟨some 500, none⟩ = 4 ∧
    queryAttempts ⟨some 500, some 500⟩ = 4 ∧
    errorRetryAttempts ⟨some 404, none⟩ 3 = 4 ∧
    queryAttempts ⟨some 404, some 404⟩ = 1 := by
  decide

/-- Claim C4 (amended): every failing mutation is retried exactly once,
regardless of the error's class — the mutation default is the unconditional
numeric `retry: 1` — so any always-failing mutation invokes the underlying
operation exactly twice before the error propagates. -/
theorem mutation_retry_unconditional (e : QueryError) : mutationAttempts e = 2 := rfl

/-- Counterexample for C4 as stated: a mutation failing with an
authentication error (status 401) is retried once — two invocations, not
the single invocation the claim requires for 4xx-class failures. -/
theorem mutation_401_is_retried :
    mutationAttempts ⟨some 401, some 401⟩ = 2 ∧
    mutationAttempts ⟨some 401, some 401⟩ ≠ 1 := by
  decide

/-- Each store transition preserves the invariant that the authenticated
flag tracks the presence of a token. -/
theorem applyAuthOp_preserves_token_inv (p : AuthStoreState × LocalStorageAuth) (op : AuthOp)
    (h : p.1.isAuthenticated = p.1.token.isSome) :
    (applyAuthOp p op).1.isAuthenticated = (applyAuthOp p op).1.token.isSome := by
  obtain ⟨s, σ⟩ := p
  cases op <;> simp_all [applyAuthOp, clearedAuthState, initializeState]
  case rehydrate =>
    cases htok : σ.auth_token <;> cases huser : σ.user_data <;>
      simp [initializeState, htok, huser, clearedAuthState]
    case some.some t u => by_cases ht : t = "" <;> simp [ht]

/-- The invariant holds along any transition sequence from any starting
pair that satisfies it. -/
theorem foldl_authOp_token_inv (ops : List AuthOp) (p : AuthStoreState × LocalStorageAuth)
    (h : p.1.isAuthenticated = p.1.token.isSome) :
    (ops.foldl applyAuthOp p).1.isAuthenticated = (ops.foldl applyAuthOp p).1.token.isSome := by
  induction ops generalizing p with
  | nil => exact h
  | cons op rest ih =>
    exact ih (applyAuthOp p op) (applyAuthOp_preserves_token_inv p op h)

/-- Claim C3 (amended): in every reachable state of the session store the
authenticated flag is true exactly when the token is non-null; the
user-side half of the claimed invariant fails, because `setToken` marks the
session authenticated even while the user is still null. -/
theorem auth_flag_tracks_token (ops : List AuthOp) (σ₀ : LocalStorageAuth) :
    (runAuth ops σ₀).1.isAuthenticated = (runAuth ops σ₀).1.token.isSome :=
  foldl_authOp_token_inv ops (initialAuthState, σ₀) rfl

/-- Witness for C3 at a concrete transition sequence. -/
theorem auth_flag_tracks_token_witness :
    (runAuth [AuthOp.setToken "tok", AuthOp.logout] ⟨none, none⟩).1.isAuthenticated =
      (runAuth [AuthOp.setToken "tok", AuthOp.logout] ⟨none, none⟩).1.token.isSome :=
  auth_flag_tracks_token [AuthOp.setToken "tok", AuthOp.logout] ⟨none, none⟩

/-- Counterexample for C3 as stated: calling `setToken` from the initial
state yields a reachable state whose authenticated flag is true while the
user is null, so authenticated ≠ (user non-null ∧ token non-null). -/
theorem setToken_authenticates_without_user :
    (runAuth [AuthOp.setToken "tok"] ⟨none, none⟩).1.isAuthenticated = true ∧
    (runAuth [AuthOp.setToken "tok"] ⟨none, none⟩).1.user = none := by
  decide

/-- Claim C5 (amended): `initialize()` with no persisted token or no
persisted user yields the cleared unauthenticated state; with both present
and the token non-empty it restores exactly the persisted user and token as
an authenticated session. (A persisted empty-string token is treated as
absent by the source's JavaScript truthiness test.) -/
theorem initialize_rehydrates (σ : LocalStorageAuth) :
    ((σ.auth_token = none ∨ σ.user_data = none) →
      initializeState σ =
        ⟨none, none, false, false, none⟩) ∧
    (∀ (t : String) (u : User), σ.auth_token = some t → t ≠ "" → σ.user_data = some u →
      initializeState σ = ⟨some u, some t, true, false, none⟩) := by
  constructor
  · rintro (h | h) <;>
      · cases htok : σ.auth_token <;> cases huser : σ.user_data <;>
          simp_all [initializeState, clearedAuthState]
  · intro t u ht hne hu
    simp [initializeState, ht, hu, hne]

/-- Witness for C5 at concrete storage contents. -/
theorem initialize_rehydrates_witness :
    initializeState ⟨none, none⟩ = ⟨none, none, false, false, none⟩ ∧
    initializeState ⟨some "tok", some ⟨"1", "John", "j@e.c", Role.PATIENT, none⟩⟩ =
      ⟨some ⟨"1", "John", "j@e.c", Role.PATIENT, none⟩, some "tok", true, false, none⟩ :=
  ⟨(initialize_rehydrates ⟨none, none⟩).1 (Or.inl rfl),
   (initialize_rehydrates ⟨some "tok", some ⟨"1", "John", "j@e.c", Role.PATIENT, none⟩⟩).2
     "tok" ⟨"1", "John", "j@e.c", Role.PATIENT, none⟩ rfl (by decide) rfl⟩

/-- Counterexample for C5 as stated: a persisted empty-string token together
with a persisted user — both present — rehydrates to an unauthenticated
state, not the authenticated one the claim requires. -/
theorem initialize_empty_token_unauthenticated :
    (LocalStorageAuth.mk (some "") (some ⟨"1", "John", "j@e.c", Role.PATIENT, none⟩)
      ).auth_token ≠ none ∧
    (LocalStorageAuth.mk (some "") (some ⟨"1", "John", "j@e.c", Role.PATIENT, none⟩)
      ).user_data ≠ none ∧
    (initializeState ⟨some "", some ⟨"1", "John", "j@e.c", Role.PATIENT, none⟩⟩
      ).isAuthenticated = false := by
  decide

/-- Auxiliary: firing timers only filters the notification list, so a list
free of a given id stays free of it. -/
theorem foldl_timerFire_all_ne (i : String) (due : List (Nat × String)) (ns : List Notif)
    (h : ∀ n ∈ ns, n.id ≠ i) :
    ∀ n ∈ due.foldl (fun ns p => ns.filter (fun n => n.id ≠ p.2)) ns, n.id ≠ i := by
  induction due generalizing ns with
  | nil => exact h
  | cons p rest ih =>
    refine ih _ (fun n hn => ?_)
    exact h n (List.mem_of_mem_filter hn)

/-- Auxiliary: if some due timer carries the id, no notification with that
id survives the firing pass. -/
theorem foldl_timerFire_removes (i : String) (due : List (Nat × String)) (ns : List Notif)
    (h : ∃ t, (t, i) ∈ due) :
    ∀ n ∈ due.foldl (fun ns p => ns.filter (fun n => n.id ≠ p.2)) ns, n.id ≠ i := by
  induction due generalizing ns with
  | nil => obtain ⟨t, ht⟩ := h; exact absurd ht (List.not_mem_nil _)
  | cons p rest ih =>
    obtain ⟨t, ht⟩ := h
    rcases List.mem_cons.mp ht with heq | hmem
    · refine foldl_timerFire_all_ne i rest _ (fun n hn => ?_)
      have := List.mem_filter.mp hn
      have hp : p.2 = i := by rw [← heq]
      simpa [hp] using this.2
    · exact ih _ ⟨t, hmem⟩

/-- Auxiliary: a notification survives the firing pass when no due timer
carries its id. -/
theorem foldl_timerFire_keeps (n : Notif) (due : List (Nat × String)) (ns : List Notif)
    (hmem : n ∈ ns) (h : ∀ p ∈ due, p.2 ≠ n.id) :
    n ∈ due.foldl (fun ns p => ns.filter (fun n => n.id ≠ p.2)) ns := by
  induction due generalizing ns with
  | nil => exact hmem
  | cons p rest ih =>
    refine ih _ (List.mem_filter.mpr ⟨hmem, ?_⟩) (fun q hq => h q (List.mem_cons_of_mem _ hq))
    have hne := h p (List.mem_cons_self _ _)
    simpa using fun hh => hne hh.symm

/-- Claim C8: a notification with positive duration D is displayed
immediately after `addNotification` and gone once D elapses on the
simulated clock; a duration-0 notification stays for any elapsed time and
disappears on explicit `removeNotification`; an unspecified duration
defaults to 5000 ms. (The freshness hypothesis on the generated id mirrors
`generateId`'s uniqueness.) -/
theorem notification_lifecycle :
    (∀ (s : UIStoreState) (input : NotifInput) (id : String) (D : Nat),
      input.duration = some D → 0 < D →
      hasNotification (addNotification s input id) id = true ∧
      hasNotification (elapse (addNotification s input id) D) id = false) ∧
    (∀ (s : UIStoreState) (input : NotifInput) (id : String) (t : Nat),
      input.duration = some 0 → (∀ p ∈ s.timers, p.2 ≠ id) →
      hasNotification (elapse (addNotification s input id) t) id = true ∧
      hasNotification (removeNotification (elapse (addNotification s input id) t) id) id
        = false) ∧
    (∀ (s : UIStoreState) (input : NotifInput) (id : String),
      input.duration = none →
      (addNotification s input id).notifications =
        s.notifications ++ [⟨id, input.message, 5000⟩]) := by
  refine ⟨fun s input id D hD hpos => ⟨?_, ?_⟩,
          fun s input id t h0 hfresh => ⟨?_, ?_⟩,
          fun s input id hnone => ?_⟩
  · simp [hasNotification, addNotification]
  · have hdue : ∃ tt, (tt, id) ∈
        ((addNotification s input id).timers.filter
          (fun p => p.1 ≤ (addNotification s input id).now + D)) := by
      refine ⟨s.now + D, List.mem_filter.mpr ⟨?_, by simp [addNotification]⟩⟩
      simp [addNotification, hD, hpos]
    have hall := foldl_timerFire_removes id _ (addNotification s input id).notifications hdue
    simp only [hasNotification, elapse, List.any_eq_false, decide_eq_true_eq]
    intro n hn
    exact hall n hn
  · have hkeep := foldl_timerFire_keeps
      (⟨id, input.message, 0⟩ : Notif)
      ((addNotification s input id).timers.filter
        (fun p => p.1 ≤ (addNotification s input id).now + t))
      (addNotification s input id).notifications
      (by simp [addNotification, h0])
      (by
        intro p hp
        have hmem := List.mem_filter.mp hp
        have : p ∈ s.timers := by
          simpa [addNotification, h0] using hmem.1
        exact hfresh p this)
    simp only [hasNotification, elapse, List.any_eq_true, decide_eq_true_eq]
    exact ⟨_, hkeep, rfl⟩
  · simp only [hasNotification, removeNotification, List.any_eq_false, decide_eq_true_eq]
    intro n hn
    simpa using (List.mem_filter.mp hn).2
  · simp [addNotification, hnone]

/-- Witness for C8 at concrete notifications on an empty store. -/
theorem notification_lifecycle_witness :
    (hasNotification (addNotification ⟨0, [], []⟩ ⟨"saved", some 100⟩ "a") "a" = true ∧
      hasNotification (elapse (addNotification ⟨0, [], []⟩ ⟨"saved", some 100⟩ "a") 100) "a"
        = false) ∧
    (hasNotification (elapse (addNotification ⟨0, [], []⟩ ⟨"sticky", some 0⟩ "b") 99999) "b"
        = true ∧
      hasNotification (removeNotification
        (elapse (addNotification ⟨0, [], []⟩ ⟨"sticky", some 0⟩ "b") 99999) "b") "b"
        = false) ∧
    (addNotification ⟨0, [], []⟩ ⟨"hello", none⟩ "c").notifications =
      [⟨"c", "hello", 5000⟩] :=
  ⟨notification_lifecycle.1 ⟨0, [], []⟩ ⟨"saved", some 100⟩ "a" 100 rfl (by decide),
   notification_lifecycle.2.1 ⟨0, [], []⟩ ⟨"sticky", some 0⟩ "b" 99999 rfl
     (by intro p hp; exact absurd hp (List.not_mem_nil p)),
   notification_lifecycle.2.2 ⟨0, [], []⟩ ⟨"hello", none⟩ "c" rfl⟩

/-- Auxiliary: the decimal accumulator only grows. -/
theorem natDecimalAux_length_le (fuel : Nat) :
    ∀ (n : Nat) (acc : String), acc.length ≤ (natDecimalAux fuel n acc).length := by
  induction fuel with
  | zero => intro n acc; simp [natDecimalAux]
  | succ fuel ih =>
    intro n acc
    by_cases h : n = 0
    · simp [natDecimalAux, h]
    · have hstep : natDecimalAux (fuel + 1) n acc =
          natDecimalAux fuel (n / 10) (String.singleton (Char.ofNat (48 + n % 10)) ++ acc) := by
        simp [natDecimalAux, h]
      rw [hstep]
      refine le_trans ?_ (ih (n / 10) _)
      simp [String.length_append]

/-- Auxiliary: decimal renderings are never empty. -/
theorem natDecimal_ne_empty (n : Nat) : natDecimal n ≠ "" := by
  unfold natDecimal
  by_cases h : n = 0
  · simp [h]
  · simp only [h, if_false]
    have hstep : natDecimalAux (n + 1) n "" =
        natDecimalAux n (n / 10) (String.singleton (Char.ofNat (48 + n % 10)) ++ "") := by
      simp [natDecimalAux, h]
    rw [hstep]
    intro hcontra
    have hle := natDecimalAux_length_le n (n / 10)
      (String.singleton (Char.ofNat (48 + n % 10)) ++ "")
    rw [hcontra] at hle
    have hone : (String.singleton (Char.ofNat (48 + n % 10)) ++ "").length = 1 := rfl
    rw [hone] at hle
    exact absurd hle (by decide)

/-- Auxiliary: a string of length zero is the empty string. -/
theorem length_zero_eq_empty (s : String) (h : s.length = 0) : s = "" := by
  obtain ⟨l⟩ := s
  cases l with
  | nil => rfl
  | cons c cs => simp [String.length] at h

/-- Auxiliary: number renderings are never empty. -/
theorem numToString_ne_empty (n : JSNum) : numToString n ≠ "" := by
  cases n with
  | nan => decide
  | inf => decide
  | ninf => decide
  | val q =>
    simp only [numToString]
    intro h
    have hlen := congrArg String.length h
    have hz : ("" : String).length = 0 := rfl
    simp only [String.length_append, hz] at hlen
    have hmid : (natDecimal q.num.natAbs).length = 0 := by omega
    exact natDecimal_ne_empty q.num.natAbs (length_zero_eq_empty _ hmid)

/-- Auxiliary: `String(x)` of a truthy value is never the empty string. -/
theorem jsString_ne_empty_of_truthy (v : JSVal) (h : jsTruthy v = true) : jsString v ≠ "" := by
  cases v with
  | undef => simp [jsTruthy] at h
  | null => simp [jsTruthy] at h
  | bool b =>
    cases b
    · simp [jsTruthy] at h
    · decide
  | str s => simpa [jsTruthy, jsString] using h
  | num n => exact numToString_ne_empty n

/-- Auxiliary: the `String(x || '')` coercion pattern is idempotent on
strings. -/
theorem jsString_jsOr_str_empty (s : String) : jsString (jsOr (.str s) (.str "")) = s := by
  by_cases h : s = "" <;> simp [jsOr, jsTruthy, jsString, h]

/-- Auxiliary: the role literal written by the transformer maps back to the
same role. -/
theorem role_roundtrip (r : Role) :
    (if (JSVal.str r.toStr) = JSVal.str "DOCTOR" then Role.DOCTOR else Role.PATIENT) = r := by
  cases r <;> decide

/-- Auxiliary: the status literal written by the transformer maps back to
the same status. -/
theorem status_roundtrip (st : ApptStatus) :
    (if (JSVal.str st.toStr) = JSVal.str "COMPLETED" then ApptStatus.COMPLETED
     else if (JSVal.str st.toStr) = JSVal.str "CANCELLED" then ApptStatus.CANCELLED
     else ApptStatus.PENDING) = st := by
  cases st <;> decide

/-- Auxiliary: the photo_url round trip — re-reading the written optional
field through truthiness and `String()` reproduces it. -/
theorem photo_roundtrip (v : JSVal) :
    (if jsTruthy (match (if jsTruthy v then some (jsString v) else none) with
        | some s => JSVal.str s | none => JSVal.undef) = true then
      some (jsString (match (if jsTruthy v then some (jsString v) else none) with
        | some s => JSVal.str s | none => JSVal.undef))
     else none) = (if jsTruthy v = true then some (jsString v) else none) := by
  cases hp : jsTruthy v with
  | true =>
    have hs := jsString_ne_empty_of_truthy v hp
    have ht : jsTruthy (JSVal.str (jsString v)) = true := by
      simp [jsTruthy, hs]
    simp only [hp, if_true]
    rw [ht]
    simp [jsString]
  | false => simp [hp, jsTruthy]

/-- `transformUser` is idempotent on every raw payload. -/
theorem transformUser_idem (u : RawEntity) :
    transformUser (User.toRaw (transformUser u)) = transformUser u := by
  have key : ∀ X : JSVal, jsString (jsOr (.str (jsString X)) (.str "")) = jsString X :=
    fun X => jsString_jsOr_str_empty (jsString X)
  simp only [transformUser, User.toRaw, User.mk.injEq]
  and_intros <;> first
    | exact key _
    | exact role_roundtrip _
    | exact photo_roundtrip _
    | trivial

/-- `transformDoctor` is idempotent on every raw payload. -/
theorem transformDoctor_idem (d : RawEntity) :
    transformDoctor (Doctor.toRaw (transformDoctor d)) = transformDoctor d := by
  have key : ∀ X : JSVal, jsString (jsOr (.str (jsString X)) (.str "")) = jsString X :=
    fun X => jsString_jsOr_str_empty (jsString X)
  simp only [transformDoctor, transformUser, Doctor.toRaw, Doctor.mk.injEq]
  and_intros <;> first
    | exact key _
    | exact photo_roundtrip _
    | trivial

/-- `transformPatient` is idempotent on every raw payload. -/
theorem transformPatient_idem (p : RawEntity) :
    transformPatient (User.toRaw (transformPatient p)) = transformPatient p := by
  have key : ∀ X : JSVal, jsString (jsOr (.str (jsString X)) (.str "")) = jsString X :=
    fun X => jsString_jsOr_str_empty (jsString X)
  simp only [transformPatient, transformUser, User.toRaw, User.mk.injEq]
  and_intros <;> first
    | exact key _
    | exact photo_roundtrip _
    | trivial

/-- Auxiliary: `String(x || y)` keeps a nonempty first operand. -/
theorem jsString_jsOr_of_ne (s : String) (v : JSVal) (h : s ≠ "") :
    jsString (jsOr (.str s) v) = s := by
  simp [jsOr, jsTruthy, h, jsString]

/-- Auxiliary: the doctor field round trip across re-normalization. -/
theorem map_doctor_roundtrip (o : Option RawEntity) :
    Option.map transformDoctor (Option.map Doctor.toRaw (Option.map transformDoctor o)) =
      Option.map transformDoctor o := by
  cases o <;> simp [transformDoctor_idem]

/-- Auxiliary: the patient field round trip across re-normalization. -/
theorem map_patient_roundtrip (o : Option RawEntity) :
    Option.map transformPatient (Option.map User.toRaw (Option.map transformPatient o)) =
      Option.map transformPatient o := by
  cases o <;> simp [transformPatient_idem]

/-- `transformAppointment` is idempotent whenever the normalized ids and
timestamps are nonempty (the re-normalization clock `now2` may differ). -/
theorem transformAppointment_idem_of_nonempty (now now2 : String) (a : RawAppointment)
    (h1 : (transformAppointment now a).doctorId ≠ "")
    (h2 : (transformAppointment now a).patientId ≠ "")
    (h3 : (transformAppointment now a).createdAt ≠ "")
    (h4 : (transformAppointment now a).updatedAt ≠ "") :
    transformAppointment now2 (Appointment.toRaw (transformAppointment now a)) =
      transformAppointment now a := by
  simp only [transformAppointment] at h1 h2 h3 h4
  simp only [transformAppointment, Appointment.toRaw, Appointment.mk.injEq]
  and_intros <;> first
    | exact status_roundtrip _
    | exact map_doctor_roundtrip _
    | exact map_patient_roundtrip _
    | exact jsString_jsOr_of_ne _ _ h1
    | exact jsString_jsOr_of_ne _ _ h2
    | exact jsString_jsOr_of_ne _ _ h3
    | exact jsString_jsOr_of_ne _ _ h4
    | trivial

/-- `transformPaginatedResponse` is idempotent — with an item transformer
that fixes already-normalized items — whenever the normalized page and
limit are truthy numbers, the normalized total and totalPages are not NaN,
and a zero totalPages agrees with the recomputed ceiling fallback. -/
theorem transformPaginatedResponse_idem_of (α β : Type) (resp : RawPaginated α)
    (f : α → β) (g : β → β) (hg : ∀ b, g b = b)
    (hpage : jsTruthy (.num (transformPaginatedResponse resp f).pagination.page) = true)
    (hlimit : jsTruthy (.num (transformPaginatedResponse resp f).pagination.limit) = true)
    (htot : (transformPaginatedResponse resp f).pagination.total ≠ .nan)
    (htp : (transformPaginatedResponse resp f).pagination.totalPages ≠ .nan)
    (h0 : (transformPaginatedResponse resp f).pagination.totalPages = .val 0 →
      numCeil (numDiv (transformPaginatedResponse resp f).pagination.total
        (transformPaginatedResponse resp f).pagination.limit) = .val 0) :
    transformPaginatedResponse (PaginatedResponse.toRaw (transformPaginatedResponse resp f)) g
      = transformPaginatedResponse resp f := by
  have hgid : g = id := funext hg
  subst hgid
  generalize hP : transformPaginatedResponse resp f = P at hpage hlimit htot htp h0 ⊢
  obtain ⟨pdata, pg, lim, tot, tp⟩ := P
  dsimp only at hpage hlimit htot htp h0 ⊢
  have htot2 : toNumber (jsOr (.num tot) (.num (.val 0))) = tot := by
    cases tot with
    | val q => by_cases hq : q = 0 <;> simp [jsOr, jsTruthy, toNumber, hq]
    | nan => exact absurd rfl htot
    | inf => simp [jsOr, jsTruthy, toNumber]
    | ninf => simp [jsOr, jsTruthy, toNumber]
  have hlim2 : toNumber (jsOr (.num lim) (.num (.val 10))) = lim := by
    simp [jsOr, hlimit, toNumber]
  have hpg2 : toNumber (jsOr (.num pg) (.num (.val 1))) = pg := by
    simp [jsOr, hpage, toNumber]
  have htp2 : toNumber (jsOr (.num tp)
      (.num (numCeil (numDiv (toNumber (jsOr (.num tot) (.num (.val 0))))
        (toNumber (jsOr (.num lim) (.num (.val 10)))))))) = tp := by
    rw [htot2, hlim2]
    by_cases htr : jsTruthy (.num tp) = true
    · simp [jsOr, htr, toNumber]
    · cases tp with
      | val q =>
        have hq : q = 0 := by simpa [jsTruthy] using htr
        subst hq
        have hceil := h0 rfl
        simp [jsOr, jsTruthy, toNumber, hceil]
      | nan => exact absurd rfl htp
      | inf => simp [jsTruthy] at htr
      | ninf => simp [jsTruthy] at htr
  simp only [transformPaginatedResponse, PaginatedResponse.toRaw, Option.getD_some,
    List.map_id, PaginatedResponse.mk.injEq, Pagination.mk.injEq]
  and_intros <;> first
    | exact hpg2
    | exact hlim2
    | exact htot2
    | exact htp2
    | trivial

/-- Claim C6 (amended): `transformUser` is idempotent on every payload.
`transformAppointment` is idempotent provided the normalized doctorId,
patientId, createdAt and updatedAt are nonempty — in general it is not:
when the reference id coerces to the empty string, re-normalization turns
it into the string "undefined". `transformPaginatedResponse` (with an item
transformer fixing normalized items) is idempotent provided the normalized
page and limit are truthy numbers and total/totalPages are not NaN, with a
zero totalPages agreeing with the recomputed fallback — in general it is
not (e.g. a raw page of "0" normalizes to 0 and re-normalizes to 1). -/
theorem normalizer_idempotence_amended :
    (∀ u : RawEntity, transformUser (User.toRaw (transformUser u)) = transformUser u) ∧
    (∀ (now now2 : String) (a : RawAppointment),
      (transformAppointment now a).doctorId ≠ "" →
      (transformAppointment now a).patientId ≠ "" →
      (transformAppointment now a).createdAt ≠ "" →
      (transformAppointment now a).updatedAt ≠ "" →
      transformAppointment now2 (Appointment.toRaw (transformAppointment now a)) =
        transformAppointment now a) ∧
    (∀ (α β : Type) (resp : RawPaginated α) (f : α → β) (g : β → β), (∀ b, g b = b) →
      jsTruthy (.num (transformPaginatedResponse resp f).pagination.page) = true →
      jsTruthy (.num (transformPaginatedResponse resp f).pagination.limit) = true →
      (transformPaginatedResponse resp f).pagination.total ≠ .nan →
      (transformPaginatedResponse resp f).pagination.totalPages ≠ .nan →
      ((transformPaginatedResponse resp f).pagination.totalPages = .val 0 →
        numCeil (numDiv (transformPaginatedResponse resp f).pagination.total
          (transformPaginatedResponse resp f).pagination.limit) = .val 0) →
      transformPaginatedResponse
        (PaginatedResponse.toRaw (transformPaginatedResponse resp f)) g
        = transformPaginatedResponse resp f) :=
  ⟨transformUser_idem, transformAppointment_idem_of_nonempty,
   transformPaginatedResponse_idem_of⟩

/-- Witness for C6 at concrete payloads. -/
theorem normalizer_idempotence_amended_witness :
    transformUser (User.toRaw (transformUser
        ⟨.str "1", .str "n", .str "e", .str "DOCTOR", .str "p.png", .undef⟩)) =
      transformUser ⟨.str "1", .str "n", .str "e", .str "DOCTOR", .str "p.png", .undef⟩ ∧
    transformAppointment "T2" (Appointment.toRaw (transformAppointment "T1"
        ⟨.str "1", .str "d1", .undef, .str "p1", .undef, .str "2020-01-01", .str "PENDING",
         none, none, .str "c", .undef, .str "u", .undef⟩)) =
      transformAppointment "T1"
        ⟨.str "1", .str "d1", .undef, .str "p1", .undef, .str "2020-01-01", .str "PENDING",
         none, none, .str "c", .undef, .str "u", .undef⟩ ∧
    transformPaginatedResponse (PaginatedResponse.toRaw (transformPaginatedResponse
        (RawPaginated.mk (α := Nat) (some [7])
          (some ⟨.num (.val 1), .num (.val 10), .num (.val 2), .num (.val 1)⟩))
        (fun n => n))) (fun n => n) =
      transformPaginatedResponse
        (RawPaginated.mk (α := Nat) (some [7])
          (some ⟨.num (.val 1), .num (.val 10), .num (.val 2), .num (.val 1)⟩))
        (fun n => n) :=
  ⟨normalizer_idempotence_amended.1
      ⟨.str "1", .str "n", .str "e", .str "DOCTOR", .str "p.png", .undef⟩,
   normalizer_idempotence_amended.2.1 "T1" "T2"
      ⟨.str "1", .str "d1", .undef, .str "p1", .undef, .str "2020-01-01", .str "PENDING",
       none, none, .str "c", .undef, .str "u", .undef⟩
      (by decide) (by decide) (by decide) (by decide),
   normalizer_idempotence_amended.2.2 Nat Nat
      ⟨some [7], some ⟨.num (.val 1), .num (.val 10), .num (.val 2), .num (.val 1)⟩⟩
      (fun n => n) (fun n => n) (fun _ => rfl)
      (by decide) (by decide) (by decide) (by decide) (by decide)⟩

/-- Counterexample for C6 as stated: a raw appointment whose `doctor_id` is
the empty string normalizes to an empty doctorId, and re-normalizing turns
that into "undefined" — the normalizers are not all idempotent. -/
theorem transformAppointment_renormalization_diverges :
    (transformAppointment "T"
        ⟨.str "1", .undef, .str "", .str "p", .undef, .str "2020-01-01", .str "PENDING",
         none, none, .str "c", .undef, .str "u", .undef⟩).doctorId = "" ∧
    (transformAppointment "T" (Appointment.toRaw (transformAppointment "T"
        ⟨.str "1", .undef, .str "", .str "p", .undef, .str "2020-01-01", .str "PENDING",
         none, none, .str "c", .undef, .str "u", .undef⟩))).doctorId = "undefined" ∧
    transformAppointment "T" (Appointment.toRaw (transformAppointment "T"
        ⟨.str "1", .undef, .str "", .str "p", .undef, .str "2020-01-01", .str "PENDING",
         none, none, .str "c", .undef, .str "u", .undef⟩)) ≠
      transformAppointment "T"
        ⟨.str "1", .undef, .str "", .str "p", .undef, .str "2020-01-01", .str "PENDING",
         none, none, .str "c", .undef, .str "u", .undef⟩ := by
  decide

/-- Auxiliary: an optimistic step at a different key leaves an entry
untouched. -/
theorem optimStep_store_ne (aid : String) (st : StatusArg) (now : String)
    (base : Cache) (pair : QKey × Option CacheData) (k : QKey) (h : pair.1 ≠ k) :
    (optimStep aid st now base pair).store k = base.store k := by
  obtain ⟨pk, pd⟩ := pair
  cases pd with
  | none => rfl
  | some cd =>
    cases cd with
    | appt a => rfl
    | pag p =>
      simp only [optimStep, setQueryData]
      rw [if_neg (fun hk => h hk.symm)]

/-- Auxiliary: the optimistic pass leaves an entry untouched when every
snapshot pair at that key holds no data (the source's guard skips them). -/
theorem optimPass_store_preserve (aid : String) (st : StatusArg) (now : String)
    (S : List (QKey × Option CacheData)) (k : QKey) :
    ∀ base : Cache, (∀ p ∈ S, p.1 = k → p.2 = none) →
      (optimPass aid st now S base).store k = base.store k := by
  induction S with
  | nil => intro base _; rfl
  | cons p S ih =>
    intro base h
    have hrest : (optimPass aid st now S (optimStep aid st now base p)).store k =
        (optimStep aid st now base p).store k :=
      ih _ (fun q hq => h q (List.mem_cons_of_mem _ hq))
    have hhead : (optimStep aid st now base p).store k = base.store k := by
      by_cases hpk : p.1 = k
      · have hnone := h p (List.mem_cons_self _ _) hpk
        obtain ⟨pk, pd⟩ := p
        have : pd = none := hnone
        subst this
        rfl
      · exact optimStep_store_ne aid st now base p k hpk
    calc (optimPass aid st now (p :: S) base).store k
        = (optimPass aid st now S (optimStep aid st now base p)).store k := rfl
      _ = (optimStep aid st now base p).store k := hrest
      _ = base.store k := hhead

/-- Auxiliary: a restore write at a different key leaves an entry
untouched. -/
theorem setQueryDataOpt_store_ne (base : Cache) (pk : QKey) (pd : Option CacheData)
    (k : QKey) (h : pk ≠ k) :
    (setQueryDataOpt base pk pd).store k = base.store k := by
  cases pd with
  | none => rfl
  | some v =>
    simp only [setQueryDataOpt, setQueryData]
    rw [if_neg (fun hk => h hk.symm)]

/-- Auxiliary: the restore pass leaves an entry untouched when no snapshot
pair carries its key. -/
theorem restorePass_store_ne (S : List (QKey × Option CacheData)) (k : QKey) :
    ∀ base : Cache, (∀ p ∈ S, p.1 ≠ k) →
      (restorePass S base).store k = base.store k := by
  induction S with
  | nil => intro base _; rfl
  | cons p S ih =>
    intro base h
    calc (restorePass (p :: S) base).store k
        = (restorePass S (setQueryDataOpt base p.1 p.2)).store k := rfl
      _ = (setQueryDataOpt base p.1 p.2).store k :=
          ih _ (fun q hq => h q (List.mem_cons_of_mem _ hq))
      _ = base.store k :=
          setQueryDataOpt_store_ne base p.1 p.2 k (h p (List.mem_cons_self _ _))

/-- Auxiliary: restoring a snapshot taken from the store `m` over the key
list `L` leaves an entry at `k` holding `m k` whenever `k` was snapshotted
with data, and leaves the base cache untouched at `k` otherwise. -/
theorem restorePass_snapshot_store (m : QKey → Option CacheData) (L : List QKey) (k : QKey) :
    ∀ base : Cache,
      (restorePass (L.map (fun j => (j, m j))) base).store k =
        if k ∈ L ∧ (m k).isSome then m k else base.store k := by
  induction L with
  | nil => intro base; simp [restorePass]
  | cons j L ih =>
    intro base
    have hstep : restorePass ((j :: L).map (fun j => (j, m j))) base =
        restorePass (L.map (fun j => (j, m j))) (setQueryDataOpt base j (m j)) := rfl
    rw [hstep, ih]
    by_cases hkL : k ∈ L ∧ (m k).isSome
    · rw [if_pos hkL, if_pos ⟨List.mem_cons_of_mem _ hkL.1, hkL.2⟩]
    · rw [if_neg hkL]
      by_cases hkj : k = j
      · subst hkj
        cases hmk : m k with
        | none =>
          rw [if_neg]
          · simp [setQueryDataOpt, hmk]
          · rintro ⟨_, hsome⟩
            simp [hmk] at hsome
        | some v =>
          rw [if_pos ⟨List.mem_cons_self _ _, by simp [hmk]⟩]
          simp [setQueryDataOpt, hmk, setQueryData]
      · rw [if_neg]
        · exact setQueryDataOpt_store_ne base j (m j) k (fun hj => hkj hj.symm)
        · rintro ⟨hmem, hsome⟩
          rcases List.mem_cons.mp hmem with h | h
          · exact hkj h
          · exact hkL ⟨h, hsome⟩

/-- Auxiliary: every pair of the patient snapshot carries a patient-list
key and the snapshotted store value. -/
theorem mem_getQueriesData (c : Cache) (pred : QKey → Bool)
    (p : QKey × Option CacheData) (hp : p ∈ getQueriesData c pred) :
    pred p.1 = true ∧ p.2 = c.store p.1 := by
  obtain ⟨j, hj, rfl⟩ := List.mem_map.mp hp
  exact ⟨(List.mem_filter.mp hj).2, rfl⟩

/-- Claim C1: if the status-update mutation fails, running the `onError`
rollback over the context returned by `onMutate` restores every cache
entry — patient lists, doctor lists and the appointment detail entry — to
exactly its value from immediately before the optimistic update ran (the
failed network call itself never touches the cache). -/
theorem optimistic_rollback_exact (c : Cache) (aid : String) (st : StatusArg)
    (now : String) (k : QKey) :
    (onErrorRollback (onMutateUpd c aid st now).1 aid (onMutateUpd c aid st now).2).store k
      = c.store k := by
  simp only [onMutateUpd, onErrorRollback, getQueriesData]
  have hPkey : ∀ p ∈ (c.keys.filter isPatientKey).map (fun j => (j, c.store j)),
      isPatientKey p.1 = true ∧ p.2 = c.store p.1 :=
    fun p hp => mem_getQueriesData c isPatientKey p hp
  have hDkey : ∀ p ∈ (c.keys.filter isDoctorKey).map (fun j => (j, c.store j)),
      isDoctorKey p.1 = true ∧ p.2 = c.store p.1 :=
    fun p hp => mem_getQueriesData c isDoctorKey p hp
  have hdet : ∀ i : String,
      (optimPass aid st now ((c.keys.filter isDoctorKey).map (fun j => (j, c.store j)))
        (optimPass aid st now ((c.keys.filter isPatientKey).map (fun j => (j, c.store j))) c)
        ).store (QKey.detail i) = c.store (QKey.detail i) := by
    intro i
    have hd1 : ∀ p ∈ (c.keys.filter isDoctorKey).map (fun j => (j, c.store j)),
        p.1 = QKey.detail i → p.2 = none := by
      intro p hp hpk
      have hkey := (hDkey p hp).1
      rw [hpk] at hkey
      simp [isDoctorKey] at hkey
    have hp1 : ∀ p ∈ (c.keys.filter isPatientKey).map (fun j => (j, c.store j)),
        p.1 = QKey.detail i → p.2 = none := by
      intro p hp hpk
      have hkey := (hPkey p hp).1
      rw [hpk] at hkey
      simp [isPatientKey] at hkey
    rw [optimPass_store_preserve aid st now _ (QKey.detail i) _ hd1,
        optimPass_store_preserve aid st now _ (QKey.detail i) c hp1]
  cases hex : (optimPass aid st now ((c.keys.filter isDoctorKey).map (fun j => (j, c.store j)))
      (optimPass aid st now ((c.keys.filter isPatientKey).map (fun j => (j, c.store j))) c)
      ).store (QKey.detail aid) with
  | none =>
    cases k with
    | patientList f =>
      have hSDne : ∀ p ∈ (c.keys.filter isDoctorKey).map (fun j => (j, c.store j)),
          p.1 ≠ QKey.patientList f := by
        intro p hp hpk
        have hkey := (hDkey p hp).1
        rw [hpk] at hkey
        simp [isDoctorKey] at hkey
      rw [restorePass_store_ne _ _ _ hSDne,
          restorePass_snapshot_store c.store (c.keys.filter isPatientKey) (QKey.patientList f)]
      by_cases hin : QKey.patientList f ∈ c.keys.filter isPatientKey ∧
          (c.store (QKey.patientList f)).isSome
      · rw [if_pos hin]
      · rw [if_neg hin]
        have hd2 : ∀ p ∈ (c.keys.filter isDoctorKey).map (fun j => (j, c.store j)),
            p.1 = QKey.patientList f → p.2 = none := by
          intro p hp hpk
          have hkey := (hDkey p hp).1
          rw [hpk] at hkey
          simp [isDoctorKey] at hkey
        have hp2 : ∀ p ∈ (c.keys.filter isPatientKey).map (fun j => (j, c.store j)),
            p.1 = QKey.patientList f → p.2 = none := by
          intro p hp hpk
          have hp1mem : p.1 ∈ c.keys.filter isPatientKey := by
            obtain ⟨j, hj, rfl⟩ := List.mem_map.mp hp
            exact hj
          rw [hpk] at hp1mem
          have hnone : c.store (QKey.patientList f) = none := by
            by_contra hne
            exact hin ⟨hp1mem, Option.ne_none_iff_isSome.mp hne⟩
          rw [(hPkey p hp).2, hpk, hnone]
        rw [optimPass_store_preserve aid st now _ _ _ hd2,
            optimPass_store_preserve aid st now _ _ c hp2]
    | doctorList f =>
      rw [restorePass_snapshot_store c.store (c.keys.filter isDoctorKey) (QKey.doctorList f)]
      by_cases hin : QKey.doctorList f ∈ c.keys.filter isDoctorKey ∧
          (c.store (QKey.doctorList f)).isSome
      · rw [if_pos hin]
      · rw [if_neg hin]
        have hSPne : ∀ p ∈ (c.keys.filter isPatientKey).map (fun j => (j, c.store j)),
            p.1 ≠ QKey.doctorList f := by
          intro p hp hpk
          have hkey := (hPkey p hp).1
          rw [hpk] at hkey
          simp [isPatientKey] at hkey
        rw [restorePass_store_ne _ _ _ hSPne]
        have hd2 : ∀ p ∈ (c.keys.filter isDoctorKey).map (fun j => (j, c.store j)),
            p.1 = QKey.doctorList f → p.2 = none := by
          intro p hp hpk
          have hp1mem : p.1 ∈ c.keys.filter isDoctorKey := by
            obtain ⟨j, hj, rfl⟩ := List.mem_map.mp hp
            exact hj
          rw [hpk] at hp1mem
          have hnone : c.store (QKey.doctorList f) = none := by
            by_contra hne
            exact hin ⟨hp1mem, Option.ne_none_iff_isSome.mp hne⟩
          rw [(hDkey p hp).2, hpk, hnone]
        have hp2 : ∀ p ∈ (c.keys.filter isPatientKey).map (fun j => (j, c.store j)),
            p.1 = QKey.doctorList f → p.2 = none := by
          intro p hp hpk
          have hkey := (hPkey p hp).1
          rw [hpk] at hkey
          simp [isPatientKey] at hkey
        rw [optimPass_store_preserve aid st now _ _ _ hd2,
            optimPass_store_preserve aid st now _ _ c hp2]
    | detail i =>
      have hSDne : ∀ p ∈ (c.keys.filter isDoctorKey).map (fun j => (j, c.store j)),
          p.1 ≠ QKey.detail i := by
        intro p hp hpk
        have hkey := (hDkey p hp).1
        rw [hpk] at hkey
        simp [isDoctorKey] at hkey
      have hSPne : ∀ p ∈ (c.keys.filter isPatientKey).map (fun j => (j, c.store j)),
          p.1 ≠ QKey.detail i := by
        intro p hp hpk
        have hkey := (hPkey p hp).1
        rw [hpk] at hkey
        simp [isPatientKey] at hkey
      rw [restorePass_store_ne _ _ _ hSDne, restorePass_store_ne _ _ _ hSPne]
      exact hdet i
  | some d =>
    cases k with
    | patientList f =>
      have hwr : (setQueryData (restorePass
          ((c.keys.filter isDoctorKey).map (fun j => (j, c.store j)))
          (restorePass ((c.keys.filter isPatientKey).map (fun j => (j, c.store j)))
            (setQueryData
              (optimPass aid st now ((c.keys.filter isDoctorKey).map (fun j => (j, c.store j)))
                (optimPass aid st now
                  ((c.keys.filter isPatientKey).map (fun j => (j, c.store j))) c))
              (QKey.detail aid) (applyStatusToCacheData aid st now d))))
          (QKey.detail aid) d).store (QKey.patientList f)
          = (restorePass ((c.keys.filter isDoctorKey).map (fun j => (j, c.store j)))
          (restorePass ((c.keys.filter isPatientKey).map (fun j => (j, c.store j)))
            (setQueryData
              (optimPass aid st now ((c.keys.filter isDoctorKey).map (fun j => (j, c.store j)))
                (optimPass aid st now
                  ((c.keys.filter isPatientKey).map (fun j => (j, c.store j))) c))
              (QKey.detail aid) (applyStatusToCacheData aid st now d)))).store
            (QKey.patientList f) := by
        simp [setQueryData]
      rw [hwr]
      have hSDne : ∀ p ∈ (c.keys.filter isDoctorKey).map (fun j => (j, c.store j)),
          p.1 ≠ QKey.patientList f := by
        intro p hp hpk
        have hkey := (hDkey p hp).1
        rw [hpk] at hkey
        simp [isDoctorKey] at hkey
      rw [restorePass_store_ne _ _ _ hSDne,
          restorePass_snapshot_store c.store (c.keys.filter isPatientKey) (QKey.patientList f)]
      by_cases hin : QKey.patientList f ∈ c.keys.filter isPatientKey ∧
          (c.store (QKey.patientList f)).isSome
      · rw [if_pos hin]
      · rw [if_neg hin]
        have hwr2 : (setQueryData
            (optimPass aid st now ((c.keys.filter isDoctorKey).map (fun j => (j, c.store j)))
              (optimPass aid st now
                ((c.keys.filter isPatientKey).map (fun j => (j, c.store j))) c))
            (QKey.detail aid) (applyStatusToCacheData aid st now d)).store (QKey.patientList f)
            = (optimPass aid st now ((c.keys.filter isDoctorKey).map (fun j => (j, c.store j)))
              (optimPass aid st now
                ((c.keys.filter isPatientKey).map (fun j => (j, c.store j))) c)).store
              (QKey.patientList f) := by
          simp [setQueryData]
        rw [hwr2]
        have hd2 : ∀ p ∈ (c.keys.filter isDoctorKey).map (fun j => (j, c.store j)),
            p.1 = QKey.patientList f → p.2 = none := by
          intro p hp hpk
          have hkey := (hDkey p hp).1
          rw [hpk] at hkey
          simp [isDoctorKey] at hkey
        have hp2 : ∀ p ∈ (c.keys.filter isPatientKey).map (fun j => (j, c.store j)),
            p.1 = QKey.patientList f → p.2 = none := by
          intro p hp hpk
          have hp1mem : p.1 ∈ c.keys.filter isPatientKey := by
            obtain ⟨j, hj, rfl⟩ := List.mem_map.mp hp
            exact hj
          rw [hpk] at hp1mem
          have hnone : c.store (QKey.patientList f) = none := by
            by_contra hne
            exact hin ⟨hp1mem, Option.ne_none_iff_isSome.mp hne⟩
          rw [(hPkey p hp).2, hpk, hnone]
        rw [optimPass_store_preserve aid st now _ _ _ hd2,
            optimPass_store_preserve aid st now _ _ c hp2]
    | doctorList f =>
      have hwr : ∀ base : Cache, (setQueryData base (QKey.detail aid) d).store (QKey.doctorList f)
          = base.store (QKey.doctorList f) := by
        intro base
        simp [setQueryData]
      rw [hwr]
      rw [restorePass_snapshot_store c.store (c.keys.filter isDoctorKey) (QKey.doctorList f)]
      by_cases hin : QKey.doctorList f ∈ c.keys.filter isDoctorKey ∧
          (c.store (QKey.doctorList f)).isSome
      · rw [if_pos hin]
      · rw [if_neg hin]
        have hSPne : ∀ p ∈ (c.keys.filter isPatientKey).map (fun j => (j, c.store j)),
            p.1 ≠ QKey.doctorList f := by
          intro p hp hpk
          have hkey := (hPkey p hp).1
          rw [hpk] at hkey
          simp [isPatientKey] at hkey
        rw [restorePass_store_ne _ _ _ hSPne]
        have hwr2 : ∀ base : Cache,
            (setQueryData base (QKey.detail aid)
              (applyStatusToCacheData aid st now d)).store (QKey.doctorList f)
            = base.store (QKey.doctorList f) := by
          intro base
          simp [setQueryData]
        rw [hwr2]
        have hd2 : ∀ p ∈ (c.keys.filter isDoctorKey).map (fun j => (j, c.store j)),
            p.1 = QKey.doctorList f → p.2 = none := by
          intro p hp hpk
          have hp1mem : p.1 ∈ c.keys.filter isDoctorKey := by
            obtain ⟨j, hj, rfl⟩ := List.mem_map.mp hp
            exact hj
          rw [hpk] at hp1mem
          have hnone : c.store (QKey.doctorList f) = none := by
            by_contra hne
            exact hin ⟨hp1mem, Option.ne_none_iff_isSome.mp hne⟩
          rw [(hDkey p hp).2, hpk, hnone]
        have hp2 : ∀ p ∈ (c.keys.filter isPatientKey).map (fun j => (j, c.store j)),
            p.1 = QKey.doctorList f → p.2 = none := by
          intro p hp hpk
          have hkey := (hPkey p hp).1
          rw [hpk] at hkey
          simp [isPatientKey] at hkey
        rw [optimPass_store_preserve aid st now _ _ _ hd2,
            optimPass_store_preserve aid st now _ _ c hp2]
    | detail i =>
      by_cases hi : i = aid
      · subst hi
        have hc : c.store (QKey.detail i) = some d := by
          rw [← hdet i]
          exact hex
        simp [setQueryData, hc]
      · have hwr : ∀ base : Cache, (setQueryData base (QKey.detail aid) d).store (QKey.detail i)
            = base.store (QKey.detail i) := by
          intro base
          simp [setQueryData, hi]
        rw [hwr]
        have hSDne : ∀ p ∈ (c.keys.filter isDoctorKey).map (fun j => (j, c.store j)),
            p.1 ≠ QKey.detail i := by
          intro p hp hpk
          have hkey := (hDkey p hp).1
          rw [hpk] at hkey
          simp [isDoctorKey] at hkey
        have hSPne : ∀ p ∈ (c.keys.filter isPatientKey).map (fun j => (j, c.store j)),
            p.1 ≠ QKey.detail i := by
          intro p hp hpk
          have hkey := (hPkey p hp).1
          rw [hpk] at hkey
          simp [isPatientKey] at hkey
        rw [restorePass_store_ne _ _ _ hSDne, restorePass_store_ne _ _ _ hSPne]
        have hwr2 : ∀ base : Cache,
            (setQueryData base (QKey.detail aid)
              (applyStatusToCacheData aid st now d)).store (QKey.detail i)
            = base.store (QKey.detail i) := by
          intro base
          simp [setQueryData, hi]
        rw [hwr2]
        exact hdet i

end DAS
